import Mathlib

/-!
# Execution engine of `code_execution_mcp`

A shallow embedding of the Go package `internal/adapters/executor`
(`shell.go`, `python.go`, `golang.go`) and of the value types of
`internal/core/domain/execution.go`.

Conventions of the embedding:

* a Go `string` is a `List Char` (`GoString`); string literals of the source are
  written `"...".toList`;
* Go's `int` is the 64-bit signed integer of a 64-bit host, `time.Duration` is an
  `int64` count of nanoseconds; both are `Int` with the wrap-around written out;
* the host (file system, process table, `runtime.GOOS`, `exec.LookPath`) is an
  explicit `Host` record whose answers are arbitrary, and the part of the host
  the runners change is an explicit `World` that is passed through.
-/

namespace Executor

/-- A Go string, as the list of its characters. -/
abbrev GoString := List Char

/-! ## `domain/execution.go` -/

/-- The type `domain.ExecutionErrorType` with its five constants, in `iota` order. -/
inductive ExecutionErrorType where
  | NoError
  | ValidationError
  | TimeoutError
  | RuntimeError
  | SystemError
  deriving DecidableEq, Repr

/-- The struct `domain.ExecutionRequest`. -/
structure ExecutionRequest where
  Language : GoString := []
  Code : GoString := []
  Script : GoString := []
  Args : List GoString := []
  WorkingDir : GoString := []
  Timeout : Int := 0
  deriving DecidableEq, Repr

/-- The struct `domain.ExecutionResult`; a field left out of a composite literal
has Go's zero value, which is the default given here. -/
structure ExecutionResult where
  ExitCode : Int := 0
  Stdout : GoString := []
  Stderr : GoString := []
  Duration : Int := 0
  IsError : Bool := false
  ErrorType : ExecutionErrorType := ExecutionErrorType.NoError
  deriving DecidableEq, Repr

/-! ## Machine integers and `time.Duration` -/

/-- Two's-complement wrap-around of a mathematical integer into `int64`. -/
def wrapInt64 (x : Int) : Int := (x + 2 ^ 63) % 2 ^ 64 - 2 ^ 63

/-- The constant `time.Second`, in nanoseconds. -/
def Second : Int := 1000000000

/-- The function `getTimeout` of `shell.go`: the result is a `time.Duration`
(nanoseconds), and each product is an `int64` multiplication. -/
def getTimeout (requested defaultSecs : Int) : Int :=
  if requested ≤ 0 then
    wrapInt64 (defaultSecs * Second)
  else if requested > 300 then
    wrapInt64 (300 * Second)
  else
    wrapInt64 (requested * Second)

/-! ## The functions of package `strings` the runners call -/

/-- The predicate `unicode.IsSpace`: the Latin-1 cases of its switch, then the
ranges of the `White_Space` table above Latin-1. -/
def isSpace (c : Char) : Bool :=
  let r := c.toNat
  if r ≤ 0xFF then
    r = 0x09 || r = 0x0A || r = 0x0B || r = 0x0C || r = 0x0D || r = 0x20 || r = 0x85 || r = 0xA0
  else
    r = 0x1680 || (0x2000 ≤ r && r ≤ 0x200A) || r = 0x2028 || r = 0x2029 || r = 0x202F ||
      r = 0x205F || r = 0x3000

/-- The function `strings.TrimSpace`: all leading and trailing white space removed. -/
def TrimSpace (s : GoString) : GoString :=
  ((s.dropWhile isSpace).reverse.dropWhile isSpace).reverse

/-- The function `strings.Contains`: `substr` occurs in `s` at some position. -/
def Contains : GoString → GoString → Bool
  | [], substr => substr.isEmpty
  | c :: cs, substr => substr.isPrefixOf (c :: cs) || Contains cs substr

/-- The function `strings.ReplaceAll(s, old, new)` for a pattern `old` of one
character, which is the only way the runners call it (the pattern is `'`). -/
def ReplaceAll (s : GoString) (old : Char) (new : GoString) : GoString :=
  match s with
  | [] => []
  | c :: cs => if c = old then new ++ ReplaceAll cs old new else c :: ReplaceAll cs old new

/-- The function `strings.Join`. -/
def Join : List GoString → GoString → GoString
  | [], _ => []
  | [a], _ => a
  | a :: b :: rest, sep => a ++ sep ++ Join (b :: rest) sep

/-! ## `shell.go`: quoting and shell resolution -/

/-- The function `shellQuoteArgs`: every argument has each `'` replaced by `'"'"'`
and is put between single quotes; the results are joined with one space. -/
def shellQuoteArgs (args : List GoString) : GoString :=
  let quoted := args.map fun arg =>
    let escaped := ReplaceAll arg '\'' "'\"'\"'".toList
    "'".toList ++ escaped ++ "'".toList
  Join quoted " ".toList

/-- The function `detectWindowsShell`; `LookPath f` says that `exec.LookPath(f)`
returned no error. The loop over `gitBashPaths` is the fold over the same list. -/
def detectWindowsShell (LookPath : GoString → Bool) : GoString × GoString :=
  if LookPath "pwsh.exe".toList then
    ("pwsh.exe".toList, "-Command".toList)
  else if LookPath "powershell.exe".toList then
    ("powershell.exe".toList, "-Command".toList)
  else
    let gitBashPaths : List GoString :=
      ["C:\\Program Files\\Git\\bin\\bash.exe".toList,
       "C:\\Program Files (x86)\\Git\\bin\\bash.exe".toList]
    match gitBashPaths.find? LookPath with
    | some path => (path, "-c".toList)
    | none =>
      if LookPath "bash.exe".toList then
        ("bash.exe".toList, "-c".toList)
      else
        ("bash".toList, "-c".toList)

/-- The three variables `shell`, `flag` and `fullScript` as `ShellExecutor.Execute`
has set them when it builds the command (lines 43 to 75 of `shell.go`). -/
def shellInvocation (GOOS : GoString) (LookPath : GoString → Bool)
    (req : ExecutionRequest) : GoString × GoString × GoString :=
  if GOOS = "windows".toList then
    let (shell, flag) := detectWindowsShell LookPath
    if shell = "powershell.exe".toList ∨ shell = "pwsh.exe".toList then
      let fullScript :=
        if req.Args.length > 0 then
          let argsStr := Join req.Args " ".toList
          "$args = @('".toList ++ ReplaceAll argsStr '\'' "''".toList ++ "'); ".toList ++ req.Script
        else req.Script
      (shell, flag, fullScript)
    else
      let fullScript :=
        if req.Args.length > 0 then
          "set -- ".toList ++ shellQuoteArgs req.Args ++ "; ".toList ++ req.Script
        else req.Script
      (shell, flag, fullScript)
  else
    let fullScript :=
      if req.Args.length > 0 then
        "set -- ".toList ++ shellQuoteArgs req.Args ++ "; ".toList ++ req.Script
      else req.Script
    ("bash".toList, "-c".toList, fullScript)

/-! ## The host: contexts, commands, processes, the temporary area -/

/-- The two errors a done `context.Context` reports: `context.Canceled` and
`context.DeadlineExceeded`. -/
inductive CtxErr where
  | Canceled
  | DeadlineExceeded
  deriving DecidableEq, Repr

/-- The text of a context error (`Error()`). -/
def CtxErr.Error : CtxErr → GoString
  | CtxErr.Canceled => "context canceled".toList
  | CtxErr.DeadlineExceeded => "context deadline exceeded".toList

/-- A (non-nil) `context.Context`, as far as the runners use one: whether it is
already done when `Execute` is entered, and the time left until its deadline. -/
structure Context where
  done : Option CtxErr := none
  timeLeft : Option Int := none
  deriving DecidableEq, Repr

/-- The function `context.WithTimeout`: the child's deadline is the earlier of
the parent's and the new one. The `cancel` it returns only releases the timer. -/
def WithTimeout (ctx : Context) (timeout : Int) : Context :=
  { ctx with timeLeft := some (match ctx.timeLeft with
                               | some t => min t timeout
                               | none => timeout) }

/-- The struct `exec.Cmd` as the runners fill it in: the context, the program
name, its arguments and the working directory (`""` is the caller's). -/
structure Cmd where
  ctx : Context
  Name : GoString
  Args : List GoString
  Dir : GoString := []
  deriving DecidableEq, Repr

/-- The function `exec.CommandContext`. -/
def CommandContext (ctx : Context) (name : GoString) (args : List GoString) : Cmd :=
  { ctx := ctx, Name := name, Args := args }

/-- How the operating system reports the end of a process: it exited with a
status, or a signal terminated it (the kill sent when the context is done is one). -/
inductive WaitStatus where
  | exited (status : Nat)
  | signaled (signal : Nat)
  deriving DecidableEq, Repr

/-- The method `ProcessState.ExitCode`: the exit status, and `-1` for a process
that a signal terminated. -/
def WaitStatus.ExitCode : WaitStatus → Int
  | WaitStatus.exited status => (status : Int)
  | WaitStatus.signaled _ => -1

/-- The method `ProcessState.Success`: the process exited with status 0. -/
def WaitStatus.Success (ws : WaitStatus) : Bool := ws.ExitCode == 0

/-- What the host answers to `cmd.Run()`: the process could not be started
(lookup, fork or exec failed, or the context was done before the start), or it
was started and waited for. For a started process: the error of the wait system
call if any, the wait status, the error reported by the goroutine that watches
the context (the text of `ctx.Err()` once it has killed the process), the error
of the goroutines that copy the output, the bytes
captured on both streams, and the files it left in its working directory. -/
inductive ProcRun where
  | startFailed (err : GoString) (elapsed : Int)
  | ran (waitErr : Option GoString) (status : WaitStatus) (watchErr : Option GoString)
      (copyErr : Option GoString) (stdout stderr : GoString)
      (files : List (GoString × GoString)) (elapsed : Int)
  deriving DecidableEq, Repr

/-- The dynamic type of the error `cmd.Run()` returns, as `executeCommand` tells
them apart: an `*exec.ExitError` with its `ExitCode()`, or any other error. -/
inductive RunError where
  | ExitError (code : Int)
  | Other (msg : GoString)
  deriving DecidableEq, Repr

/-- The error of `cmd.Run()` (`Start` then `Wait` of `os/exec`): a failed start is
returned as it is; after the wait, an error of the wait call comes first, then an
`*ExitError` when the process was not successful, then the context error, then a
copy error. `none` is Go's `nil`. -/
def ProcRun.err : ProcRun → Option RunError
  | ProcRun.startFailed err _ => some (RunError.Other err)
  | ProcRun.ran (some e) _ _ _ _ _ _ _ => some (RunError.Other e)
  | ProcRun.ran none status watchErr copyErr _ _ _ _ =>
    if !status.Success then some (RunError.ExitError status.ExitCode)
    else match watchErr with
      | some e => some (RunError.Other e)
      | none => copyErr.map RunError.Other

/-- The contents of the buffer `cmd.Stdout` after `cmd.Run()`. -/
def ProcRun.stdout : ProcRun → GoString
  | ProcRun.startFailed _ _ => []
  | ProcRun.ran _ _ _ _ out _ _ _ => out

/-- The contents of the buffer `cmd.Stderr` after `cmd.Run()`. -/
def ProcRun.stderr : ProcRun → GoString
  | ProcRun.startFailed _ _ => []
  | ProcRun.ran _ _ _ _ _ e _ _ => e

/-- The wall-clock time `cmd.Run()` took (`time.Since(startTime)`). -/
def ProcRun.elapsed : ProcRun → Int
  | ProcRun.startFailed _ t => t
  | ProcRun.ran _ _ _ _ _ _ _ t => t

/-- The files a process left in its working directory. -/
def ProcRun.files : ProcRun → List (GoString × GoString)
  | ProcRun.startFailed _ _ => []
  | ProcRun.ran _ _ _ _ _ _ fs _ => fs

/-- An entry of the temporary area: a file with its contents, or a directory
with the files in it. -/
inductive Node where
  | file (content : GoString)
  | dir (entries : List (GoString × GoString))
  deriving DecidableEq, Repr

/-- What a runner does to the host, in the order it does it. -/
inductive Event where
  | created (path : GoString)
  | written (path : GoString)
  | spawned (cmd : Cmd)
  | removed (path : GoString)
  deriving DecidableEq, Repr

/-- The part of the host the runners change: the entries of the temporary area
(by path), and the log of everything a runner has done to the host so far. -/
structure World where
  temp : List (GoString × Node) := []
  trace : List Event := []
  deriving DecidableEq, Repr

/-- The answers of the host, which the runners do not control: `runtime.GOOS`,
`exec.LookPath`, `os.TempDir()`, the strings `nextRandom()` yields on the
successive tries of `os.CreateTemp` and `os.MkdirTemp` (at most 10000 tries are
made), the error of creating or writing a given path if the host refuses, and the
outcome of running a command. -/
structure Host where
  GOOS : GoString
  LookPath : GoString → Bool
  TempDir : GoString
  randoms : List GoString
  createErr : GoString → Option GoString
  writeErr : GoString → Option GoString
  run : World → Cmd → ProcRun

/-- The host `h` on which every command has the outcome `p`. -/
def Host.answering (h : Host) (p : ProcRun) : Host :=
  { h with run := fun _ _ => p }

/-- The function `filepath.Join` on a directory and a file name, both clean. -/
def Host.join (h : Host) (dir name : GoString) : GoString :=
  dir ++ (if h.GOOS = "windows".toList then "\\".toList else "/".toList) ++ name

/-- Whether the temporary area has an entry at a path. -/
def World.has (w : World) (path : GoString) : Bool :=
  w.temp.any fun e => e.1 == path

/-- The loop of `os.CreateTemp` and `os.MkdirTemp` with `dir = ""`: the name is
`prefix + nextRandom() + suffix` under `os.TempDir()`; a name that exists is
skipped (the entry is opened exclusively), any other error of the host is
returned, and when the tries are used up the error is that the file exists. -/
def createTempLoop (h : Host) (w : World) (pre suf : GoString) (node : Node) :
    List GoString → Except GoString (GoString × World)
  | [] => Except.error ("createtemp ".toList ++ pre ++ "*".toList ++ suf ++ ": file exists".toList)
  | r :: rs =>
    let name := h.join h.TempDir (pre ++ r ++ suf)
    if w.has name then createTempLoop h w pre suf node rs
    else match h.createErr name with
      | some e => Except.error e
      | none => Except.ok (name, { temp := (name, node) :: w.temp,
                                   trace := w.trace ++ [Event.created name] })

/-- The function `os.CreateTemp("", pattern)` for a pattern `pre*suf`: a new,
empty file. -/
def CreateTemp (h : Host) (w : World) (pre suf : GoString) : Except GoString (GoString × World) :=
  createTempLoop h w pre suf (Node.file []) (h.randoms.take 10000)

/-- The function `os.MkdirTemp("", pattern)` for a pattern `pre*`: a new, empty
directory. -/
def MkdirTemp (h : Host) (w : World) (pre : GoString) : Except GoString (GoString × World) :=
  createTempLoop h w pre [] (Node.dir []) (h.randoms.take 10000)

/-- The method `tmpFile.WriteString(code)` on the file `CreateTemp` returned:
the error of the host, or the contents are now `code`. -/
def WriteString (h : Host) (w : World) (name code : GoString) : Option GoString × World :=
  match h.writeErr name with
  | some e => (some e, w)
  | none =>
    (none, { temp := w.temp.map fun e => if e.1 = name then (e.1, Node.file code) else e,
             trace := w.trace ++ [Event.written name] })

/-- The function `os.WriteFile(path, code, 0644)` for the file `base` in the
temporary directory `dir`: the error of the host, or the directory now holds the
file. -/
def WriteFile (h : Host) (w : World) (dir base code : GoString) : Option GoString × World :=
  match h.writeErr (h.join dir base) with
  | some e => (some e, w)
  | none =>
    (none, { temp := w.temp.map fun e =>
               if e.1 = dir then
                 (e.1, match e.2 with
                       | Node.dir fs => Node.dir ((base, code) :: fs)
                       | Node.file c => Node.file c)
               else e,
             trace := w.trace ++ [Event.written (h.join dir base)] })

/-- The functions `os.Remove(path)` and `os.RemoveAll(path)` on an entry of the
temporary area the runner created: the entry, with all it holds, is gone. -/
def Remove (w : World) (path : GoString) : World :=
  { temp := w.temp.filter fun e => e.1 ≠ path,
    trace := w.trace ++ [Event.removed path] }

/-- The effect of `cmd.Run()` on the world: the command is logged, and the files
the process left in its working directory are added to it when that directory is
one of the temporary area. -/
def spawn (w : World) (cmd : Cmd) (p : ProcRun) : World :=
  { temp := w.temp.map fun e =>
      if e.1 = cmd.Dir then
        (e.1, match e.2 with
              | Node.dir fs => Node.dir (fs ++ p.files)
              | Node.file c => Node.file c)
      else e,
    trace := w.trace ++ [Event.spawned cmd] }

/-- What `Execute` and `executeCommand` return: the pointer to the result and
the error (`none` is `nil` for both), and the world they leave. -/
abbrev Returned := (Option ExecutionResult × Option GoString) × World

/-! ## `shell.go`, `python.go`, `golang.go`: the runners -/

/-- The function `executeCommand` of `shell.go`. -/
def executeCommand (h : Host) (w : World) (cmd : Cmd) : Returned :=
  let p := h.run w cmd
  let w1 := spawn w cmd p
  let err := p.err
  let duration := p.elapsed
  let exitCode : Int :=
    match err with
    | none => 0
    | some (RunError.ExitError code) => code
    | some (RunError.Other _) => -1
  let errorType : ExecutionErrorType :=
    match err with
    | none => ExecutionErrorType.NoError
    | some (RunError.ExitError _) => ExecutionErrorType.RuntimeError
    | some (RunError.Other _) => ExecutionErrorType.SystemError
  ((some { ExitCode := exitCode,
           Stdout := p.stdout,
           Stderr := p.stderr,
           Duration := duration,
           IsError := exitCode != 0,
           ErrorType := errorType }, none), w1)

/-- The method `ShellExecutor.Supports`. -/
def ShellExecutor.Supports (language : GoString) : Bool :=
  language = "bash".toList || language = "zsh".toList || language = "shell".toList

/-- The method `ShellExecutor.Execute`. -/
def ShellExecutor.Execute (h : Host) (w : World) (ctx : Context) (req : ExecutionRequest) :
    Returned :=
  if TrimSpace req.Script = [] then
    ((some { IsError := true,
             ErrorType := ExecutionErrorType.ValidationError,
             Stderr := "Script cannot be empty".toList }, none), w)
  else
    let timeout := getTimeout req.Timeout 30
    let ctx := WithTimeout ctx timeout
    let (shell, flag, fullScript) := shellInvocation h.GOOS h.LookPath req
    let cmd := CommandContext ctx shell [flag, fullScript]
    let cmd := if req.WorkingDir ≠ [] then { cmd with Dir := req.WorkingDir } else cmd
    executeCommand h w cmd

/-- The method `PythonExecutor.Supports`. -/
def PythonExecutor.Supports (language : GoString) : Bool :=
  language = "python".toList || language = "python3".toList

/-- The method `PythonExecutor.Execute`. The deferred `os.Remove` runs on every
return after the temporary file exists. -/
def PythonExecutor.Execute (h : Host) (w : World) (ctx : Context) (req : ExecutionRequest) :
    Returned :=
  if TrimSpace req.Code = [] then
    ((some { IsError := true,
             ErrorType := ExecutionErrorType.ValidationError,
             Stderr := "Python code cannot be empty".toList }, none), w)
  else
    let timeout := getTimeout req.Timeout 30
    let ctx := WithTimeout ctx timeout
    match CreateTemp h w "mcp_python_".toList ".py".toList with
    | Except.error err =>
      ((some { IsError := true,
               ErrorType := ExecutionErrorType.SystemError,
               Stderr := "Error creating temp file: ".toList ++ err }, none), w)
    | Except.ok (tmpFile, w1) =>
      let body : Returned :=
        match WriteString h w1 tmpFile req.Code with
        | (some err, w2) =>
          ((some { IsError := true,
                   ErrorType := ExecutionErrorType.SystemError,
                   Stderr := "Error writing to temp file: ".toList ++ err }, none), w2)
        | (none, w2) =>
          let args := [tmpFile] ++ req.Args
          let pythonCmd := if h.GOOS = "windows".toList then "python".toList else "python3".toList
          let cmd := CommandContext ctx pythonCmd args
          let cmd := if req.WorkingDir ≠ [] then { cmd with Dir := req.WorkingDir } else cmd
          executeCommand h w2 cmd
      (body.1, Remove body.2 tmpFile)

/-- The method `GolangExecutor.Supports`. -/
def GolangExecutor.Supports (language : GoString) : Bool :=
  language = "go".toList || language = "golang".toList

/-- The method `GolangExecutor.Execute`. The deferred `os.RemoveAll` runs on
every return after the temporary directory exists. -/
def GolangExecutor.Execute (h : Host) (w : World) (ctx : Context) (req : ExecutionRequest) :
    Returned :=
  if TrimSpace req.Code = [] then
    ((some { IsError := true,
             ErrorType := ExecutionErrorType.ValidationError,
             Stderr := "Go code cannot be empty".toList }, none), w)
  else if !Contains req.Code "package main".toList then
    ((some { IsError := true,
             ErrorType := ExecutionErrorType.ValidationError,
             Stderr := "Go code must include 'package main'".toList }, none), w)
  else if !Contains req.Code "func main()".toList then
    ((some { IsError := true,
             ErrorType := ExecutionErrorType.ValidationError,
             Stderr := "Go code must include 'func main()'".toList }, none), w)
  else
    let timeout := getTimeout req.Timeout 60
    let ctx := WithTimeout ctx timeout
    match MkdirTemp h w "mcp_golang_".toList with
    | Except.error err =>
      ((some { IsError := true,
               ErrorType := ExecutionErrorType.SystemError,
               Stderr := "Error creating temp directory: ".toList ++ err }, none), w)
    | Except.ok (tmpDir, w1) =>
      let body : Returned :=
        let goFile := h.join tmpDir "main.go".toList
        match WriteFile h w1 tmpDir "main.go".toList req.Code with
        | (some err, w2) =>
          ((some { IsError := true,
                   ErrorType := ExecutionErrorType.SystemError,
                   Stderr := "Error writing Go file: ".toList ++ err }, none), w2)
        | (none, w2) =>
          let cmd := CommandContext ctx "go".toList ["run".toList, goFile]
          let cmd := if req.WorkingDir ≠ [] then { cmd with Dir := req.WorkingDir }
                     else { cmd with Dir := tmpDir }
          executeCommand h w2 cmd
      (body.1, Remove body.2 tmpDir)

/-! ## The quoting rules of the POSIX shell, as the specification words them -/

/-- Where the shell's tokenizer is: outside quotes, between single quotes, or
between double quotes. -/
inductive Quoting where
  | unquoted
  | single
  | double
  deriving DecidableEq, Repr

/-- The characters that mean more than themselves to the shell when they are not
quoted (operators, expansions, patterns, the backslash, tab and newline). -/
def shellSpecial (c : Char) : Bool :=
  "|&;<>()$`\\\t\n*?[#~=%".toList.contains c

/-- Splitting a command line into words by the quoting rules of the POSIX shell,
written from the specification and not from the source: text between single
quotes is literal; between double quotes a single quote (and any character but
the dollar sign, backquote and backslash) is literal; quoted and unquoted
segments that touch make one word; an unquoted space ends a word. `cur` is the
word being read, if one has begun. The answer is `none` where the shell would do
more than remove quotes (an unquoted or double-quoted special character) and
where a quote is left open. -/
def posixWords : Quoting → Option GoString → GoString → Option (List GoString)
  | Quoting.unquoted, cur, [] => some cur.toList
  | Quoting.single, _, [] => none
  | Quoting.double, _, [] => none
  | Quoting.unquoted, cur, c :: cs =>
    if c = ' ' then
      match cur with
      | some word => (posixWords Quoting.unquoted none cs).map fun ws => word :: ws
      | none => posixWords Quoting.unquoted none cs
    else if c = '\'' then posixWords Quoting.single (some (cur.getD [])) cs
    else if c = '"' then posixWords Quoting.double (some (cur.getD [])) cs
    else if shellSpecial c then none
    else posixWords Quoting.unquoted (some (cur.getD [] ++ [c])) cs
  | Quoting.single, cur, c :: cs =>
    if c = '\'' then posixWords Quoting.unquoted cur cs
    else posixWords Quoting.single (some (cur.getD [] ++ [c])) cs
  | Quoting.double, cur, c :: cs =>
    if c = '"' then posixWords Quoting.unquoted cur cs
    else if c = '$' ∨ c = '\\' ∨ c = Char.ofNat 96 then none
    else posixWords Quoting.double (some (cur.getD [] ++ [c])) cs

/-- The request of the specification's scenario: script `echo $1` with the
arguments `a b` and `c`. -/
def echoRequest : ExecutionRequest :=
  { Language := "bash".toList, Script := "echo $1".toList, Args := ["a b".toList, "c".toList] }

/-- The set of entries of the temporary area: their paths. -/
def World.paths (w : World) : List GoString := w.temp.map Prod.fst

/-! ## Concrete hosts and requests, for evaluating the runners -/

/-- A Unix host on which every command runs and exits with status 0. -/
def okHost : Host :=
  { GOOS := "linux".toList
    LookPath := fun _ => false
    TempDir := "/tmp".toList
    randoms := ["123".toList]
    createErr := fun _ => none
    writeErr := fun _ => none
    run := fun _ _ => ProcRun.ran none (WaitStatus.exited 0) none none "hello\n".toList [] [] 1000 }

/-- A request whose script and code are white space only. -/
def blankRequest : ExecutionRequest :=
  { Language := "bash".toList, Script := " \t\n".toList, Code := "\n  ".toList, Timeout := 5 }

/-- A Go request with the package clause but without the entry function. -/
def noMainRequest : ExecutionRequest :=
  { Language := "go".toList, Code := "package main\nfunc f() {}\n".toList }

/-- The shell command `bash -c "exit 7"` under a context without deadline. -/
def demoCmd : Cmd :=
  CommandContext {} "bash".toList ["-c".toList, "exit 7".toList]

/-- A Unix host on which every command runs and exits with status 7. -/
def exit7Host : Host :=
  { okHost with
    run := fun _ _ => ProcRun.ran none (WaitStatus.exited 7) none none [] "boom\n".toList [] 1000 }

/-- A Unix host on which no program can be started: the lookup of the
executable fails, as it does when the interpreter is not installed. -/
def noLaunchHost : Host :=
  { okHost with
    run := fun _ cmd =>
      ProcRun.startFailed ("exec: \"".toList ++ cmd.Name ++
        "\": executable file not found in $PATH".toList) 10 }

/-- A Python request that passes validation. -/
def pyRequest : ExecutionRequest :=
  { Language := "python".toList, Code := "print(1)".toList, Args := ["x".toList] }

/-- A Go request that passes validation. -/
def goRequest : ExecutionRequest :=
  { Language := "go".toList, Code := "package main\nfunc main() {}\n".toList }

/-! ## The PowerShell array and the shell candidates, as the specification words them -/

/-- One argument as a single-quoted PowerShell literal of its own, every single
quote in it doubled. Written from the specification, not from the source. -/
def psLiteral (arg : GoString) : GoString :=
  "'".toList ++ ReplaceAll arg '\'' "''".toList ++ "'".toList

/-- The script the specification describes for PowerShell: an array assignment
to `$args` with one literal per argument, in order, the literals separated by
`sep`, then `; ` and the script. Written from the specification, not from the
source. -/
def psArrayAssignment (sep : GoString) (args : List GoString) (script : GoString) : GoString :=
  "$args = @(".toList ++ Join (args.map psLiteral) sep ++ "); ".toList ++ script

/-- The shells the specification lists for a Windows host, in the order in
which they are probed. Written from the specification, not from the source. -/
def shellCandidates : List GoString :=
  ["pwsh.exe".toList, "powershell.exe".toList,
   "C:\\Program Files\\Git\\bin\\bash.exe".toList,
   "C:\\Program Files (x86)\\Git\\bin\\bash.exe".toList,
   "bash.exe".toList]

/-- A Windows host on which `pwsh.exe` is the only shell found. -/
def pwshHost : Host :=
  { okHost with GOOS := "windows".toList, LookPath := fun f => f == "pwsh.exe".toList }

/-- A Windows host on which only the second Git Bash path and `bash.exe` are found. -/
def gitBashHost : Host :=
  { okHost with GOOS := "windows".toList,
                LookPath := fun f => f == "C:\\Program Files (x86)\\Git\\bin\\bash.exe".toList ||
                  f == "bash.exe".toList }

/-- A Unix host on which every lookup succeeds, that of `pwsh.exe` too. -/
def unixAllFoundHost : Host :=
  { okHost with LookPath := fun _ => true }

/-- A shell request with two arguments, `a` and `b`. -/
def twoArgRequest : ExecutionRequest :=
  { Language := "bash".toList, Script := "Write-Output $args[0]".toList,
    Args := ["a".toList, "b".toList] }

/-- A shell request with one argument, `it's`. -/
def oneArgRequest : ExecutionRequest :=
  { Language := "bash".toList, Script := "Write-Output $args[0]".toList,
    Args := ["it's".toList] }

/-! ## Theorems -/

/-! ### Lemmas on the string functions -/

theorem TrimSpace_eq_nil_iff (s : GoString) :
    TrimSpace s = [] ↔ ∀ c ∈ s, isSpace c = true := by
  unfold TrimSpace
  rw [List.reverse_eq_nil_iff, List.dropWhile_eq_nil_iff]
  constructor
  · intro hall
    by_contra hne
    have hnil : s.dropWhile isSpace ≠ [] := by
      intro h0
      exact hne (List.dropWhile_eq_nil_iff.mp h0)
    have hhead := List.head_dropWhile_not isSpace s hnil
    have hmem : (s.dropWhile isSpace).head hnil ∈ (s.dropWhile isSpace).reverse :=
      List.mem_reverse.mpr (List.head_mem hnil)
    rw [hall _ hmem] at hhead
    exact absurd hhead (by simp)
  · intro hall c hc
    have hnil : s.dropWhile isSpace = [] := List.dropWhile_eq_nil_iff.mpr hall
    rw [hnil] at hc
    simp at hc

theorem Contains_iff_occurs (s substr : GoString) :
    Contains s substr = true ↔ substr <:+: s := by
  induction s with
  | nil =>
    cases substr <;> simp [Contains]
  | cons c cs ih =>
    rw [Contains, Bool.or_eq_true, ih, List.infix_cons_iff, List.isPrefixOf_iff_prefix]

/-! ### C1: the timeout resolver -/

/-- C1, as stated, fails: on a 64-bit host the default `9223372037` is an `int`,
and `getTimeout(0, 9223372037)` is not 9223372037 seconds: the `int64` product
with `time.Second` wraps around to a negative duration. -/
theorem getTimeout_default_overflows :
    getTimeout 0 9223372037 = -9223372036709551616 ∧
      getTimeout 0 9223372037 ≠ 9223372037 * Second := by
  decide

/-- C1, amended: for every requested value and every default `d` whose `d`
seconds fit a `time.Duration` (`-9223372036 ≤ d ≤ 9223372036`), `getTimeout`
is `d` seconds when `requested ≤ 0`, 300 seconds when `requested > 300`, and
`requested` seconds otherwise; so 0 and -5 give the default, 301 gives 300 s,
120 gives 120 s and 300 gives 300 s. -/
theorem getTimeout_spec (requested d : Int) (hlo : -9223372036 ≤ d) (hhi : d ≤ 9223372036) :
    (requested ≤ 0 → getTimeout requested d = d * Second) ∧
    (requested > 300 → getTimeout requested d = 300 * Second) ∧
    (1 ≤ requested → requested ≤ 300 → getTimeout requested d = requested * Second) ∧
    getTimeout 0 d = d * Second ∧
    getTimeout (-5) d = d * Second ∧
    getTimeout 301 d = 300 * Second ∧
    getTimeout 120 d = 120 * Second ∧
    getTimeout 300 d = 300 * Second := by
  have hwrap : ∀ x : Int, -9223372036 ≤ x → x ≤ 9223372036 →
      wrapInt64 (x * Second) = x * Second := by
    intro x h1 h2
    unfold wrapInt64 Second
    norm_num
    omega
  refine ⟨?_, ?_, ?_, ?_, ?_, ?_, ?_, ?_⟩
  · intro h
    rw [getTimeout, if_pos h]
    exact hwrap d hlo hhi
  · intro h
    have h0 : ¬ requested ≤ 0 := by omega
    rw [getTimeout, if_neg h0, if_pos h]
    exact hwrap 300 (by norm_num) (by norm_num)
  · intro h1 h2
    have h0 : ¬ requested ≤ 0 := by omega
    have h3 : ¬ requested > 300 := by omega
    rw [getTimeout, if_neg h0, if_neg h3]
    exact hwrap requested (by omega) (by omega)
  · rw [getTimeout, if_pos (by norm_num)]
    exact hwrap d hlo hhi
  · rw [getTimeout, if_pos (by norm_num)]
    exact hwrap d hlo hhi
  · rw [getTimeout, if_neg (by norm_num), if_pos (by norm_num)]
    exact hwrap 300 (by norm_num) (by norm_num)
  · rw [getTimeout, if_neg (by norm_num), if_neg (by norm_num)]
    exact hwrap 120 (by norm_num) (by norm_num)
  · rw [getTimeout, if_neg (by norm_num), if_neg (by norm_num)]
    exact hwrap 300 (by norm_num) (by norm_num)

/-- The amended C1 at the shell runner's default of 30 seconds. -/
theorem getTimeout_spec_witness :
    (-9223372036 : Int) ≤ 30 ∧ (30 : Int) ≤ 9223372036 ∧
    getTimeout 0 30 = 30 * Second ∧
    getTimeout (-5) 30 = 30 * Second ∧
    getTimeout 301 30 = 300 * Second ∧
    getTimeout 120 30 = 120 * Second ∧
    getTimeout 300 30 = 300 * Second :=
  ⟨by decide, by decide,
    (getTimeout_spec 0 30 (by decide) (by decide)).2.2.2.1,
    (getTimeout_spec 0 30 (by decide) (by decide)).2.2.2.2.1,
    (getTimeout_spec 0 30 (by decide) (by decide)).2.2.2.2.2.1,
    (getTimeout_spec 0 30 (by decide) (by decide)).2.2.2.2.2.2.1,
    (getTimeout_spec 0 30 (by decide) (by decide)).2.2.2.2.2.2.2⟩

/-! ### C2: an empty or blank body is rejected before anything is staged -/

/-- C2: when the script (shell runner) or the code (Python and Go runners) is
empty or white space only, `Execute` returns a result with `IsError = true`,
`ErrorType = ValidationError` and `ExitCode = 0`, with a nil error, and it leaves
the world as it found it: nothing was created and nothing was spawned. -/
theorem blank_body_rejected (h : Host) (w : World) (ctx : Context) (req : ExecutionRequest) :
    ((∀ c ∈ req.Script, isSpace c = true) →
      ∃ r, ShellExecutor.Execute h w ctx req = ((some r, none), w) ∧
        r.IsError = true ∧ r.ErrorType = ExecutionErrorType.ValidationError ∧
        r.ExitCode = 0) ∧
    ((∀ c ∈ req.Code, isSpace c = true) →
      (∃ r, PythonExecutor.Execute h w ctx req = ((some r, none), w) ∧
        r.IsError = true ∧ r.ErrorType = ExecutionErrorType.ValidationError ∧
        r.ExitCode = 0) ∧
      (∃ r, GolangExecutor.Execute h w ctx req = ((some r, none), w) ∧
        r.IsError = true ∧ r.ErrorType = ExecutionErrorType.ValidationError ∧
        r.ExitCode = 0)) := by
  refine ⟨fun hs => ?_, fun hc => ⟨?_, ?_⟩⟩
  · have ht := (TrimSpace_eq_nil_iff req.Script).mpr hs
    exact ⟨_, by rw [ShellExecutor.Execute, if_pos ht], rfl, rfl, rfl⟩
  · have ht := (TrimSpace_eq_nil_iff req.Code).mpr hc
    exact ⟨_, by rw [PythonExecutor.Execute, if_pos ht], rfl, rfl, rfl⟩
  · have ht := (TrimSpace_eq_nil_iff req.Code).mpr hc
    exact ⟨_, by rw [GolangExecutor.Execute, if_pos ht], rfl, rfl, rfl⟩

/-- C2 at a request whose script is a blank, a tab and a newline and whose code
is a newline and two blanks. -/
theorem blank_body_rejected_witness :
    (∀ c ∈ blankRequest.Script, isSpace c = true) ∧
    (∀ c ∈ blankRequest.Code, isSpace c = true) ∧
    (∃ r, ShellExecutor.Execute okHost {} {} blankRequest = ((some r, none), {}) ∧
      r.IsError = true ∧ r.ErrorType = ExecutionErrorType.ValidationError ∧ r.ExitCode = 0) ∧
    (∃ r, PythonExecutor.Execute okHost {} {} blankRequest = ((some r, none), {}) ∧
      r.IsError = true ∧ r.ErrorType = ExecutionErrorType.ValidationError ∧ r.ExitCode = 0) ∧
    (∃ r, GolangExecutor.Execute okHost {} {} blankRequest = ((some r, none), {}) ∧
      r.IsError = true ∧ r.ErrorType = ExecutionErrorType.ValidationError ∧ r.ExitCode = 0) :=
  ⟨by decide, by decide,
    (blank_body_rejected okHost {} {} blankRequest).1 (by decide),
    ((blank_body_rejected okHost {} {} blankRequest).2 (by decide)).1,
    ((blank_body_rejected okHost {} {} blankRequest).2 (by decide)).2⟩

/-! ### C3: Go code without the entry point is rejected before anything is staged -/

/-- C3: when the code does not contain the text `package main`, or does not
contain the text `func main()`, `GolangExecutor.Execute` returns a result with
`IsError = true` and `ErrorType = ValidationError`, with a nil error, and it
leaves the world as it found it: no temporary directory was created and the Go
toolchain was not run. -/
theorem missing_entry_point_rejected (h : Host) (w : World) (ctx : Context)
    (req : ExecutionRequest)
    (hmiss : ¬ ("package main".toList <:+: req.Code) ∨ ¬ ("func main()".toList <:+: req.Code)) :
    ∃ r, GolangExecutor.Execute h w ctx req = ((some r, none), w) ∧
      r.IsError = true ∧ r.ErrorType = ExecutionErrorType.ValidationError := by
  unfold GolangExecutor.Execute
  by_cases ht : TrimSpace req.Code = []
  · rw [if_pos ht]
    exact ⟨_, rfl, rfl, rfl⟩
  · rw [if_neg ht]
    by_cases hp : Contains req.Code "package main".toList = true
    · have hf : Contains req.Code "func main()".toList = false := by
        rcases hmiss with hm | hm
        · exact absurd ((Contains_iff_occurs _ _).mp hp) hm
        · cases hc : Contains req.Code "func main()".toList
          · rfl
          · exact absurd ((Contains_iff_occurs _ _).mp hc) hm
      simp only [hp, hf, Bool.not_true, Bool.not_false, if_true, Bool.false_eq_true, if_false]
      exact ⟨_, rfl, rfl, rfl⟩
    · have hp0 : Contains req.Code "package main".toList = false := by
        cases hc : Contains req.Code "package main".toList
        · rfl
        · exact absurd hc hp
      simp only [hp0, Bool.not_false, if_true]
      exact ⟨_, rfl, rfl, rfl⟩

/-- C3 at a program with the package clause and no `func main()`. -/
theorem missing_entry_point_rejected_witness :
    (¬ ("package main".toList <:+: noMainRequest.Code) ∨
      ¬ ("func main()".toList <:+: noMainRequest.Code)) ∧
    ∃ r, GolangExecutor.Execute okHost {} {} noMainRequest = ((some r, none), {}) ∧
      r.IsError = true ∧ r.ErrorType = ExecutionErrorType.ValidationError :=
  ⟨Or.inr (fun hin => absurd ((Contains_iff_occurs _ _).mpr hin) (by decide)),
    missing_entry_point_rejected okHost {} {} noMainRequest
      (Or.inr (fun hin => absurd ((Contains_iff_occurs _ _).mpr hin) (by decide)))⟩

/-! ### The return paths of the runners -/

/-- Every return of `ShellExecutor.Execute` is the validation literal or what
`executeCommand` returns. -/
theorem shell_Execute_cases (P : Option ExecutionResult × Option GoString → Prop)
    (h : Host) (w : World) (ctx : Context) (req : ExecutionRequest)
    (hval : ∀ msg, P (some { IsError := true, ErrorType := ExecutionErrorType.ValidationError,
                             Stderr := msg }, none))
    (hcmd : ∀ w1 cmd, P (executeCommand h w1 cmd).1) :
    P (ShellExecutor.Execute h w ctx req).1 := by
  unfold ShellExecutor.Execute
  split
  · exact hval _
  · exact hcmd _ _

/-- Every return of `PythonExecutor.Execute` is the validation literal, one of
the two system-error literals, or what `executeCommand` returns. -/
theorem python_Execute_cases (P : Option ExecutionResult × Option GoString → Prop)
    (h : Host) (w : World) (ctx : Context) (req : ExecutionRequest)
    (hval : ∀ msg, P (some { IsError := true, ErrorType := ExecutionErrorType.ValidationError,
                             Stderr := msg }, none))
    (hsys : ∀ msg, P (some { IsError := true, ErrorType := ExecutionErrorType.SystemError,
                             Stderr := msg }, none))
    (hcmd : ∀ w1 cmd, P (executeCommand h w1 cmd).1) :
    P (PythonExecutor.Execute h w ctx req).1 := by
  unfold PythonExecutor.Execute
  split
  · exact hval _
  · split
    · exact hsys _
    · dsimp only
      split
      · exact hsys _
      · exact hcmd _ _

/-- Every return of `GolangExecutor.Execute` is one of the three validation
literals, one of the two system-error literals, or what `executeCommand` returns. -/
theorem golang_Execute_cases (P : Option ExecutionResult × Option GoString → Prop)
    (h : Host) (w : World) (ctx : Context) (req : ExecutionRequest)
    (hval : ∀ msg, P (some { IsError := true, ErrorType := ExecutionErrorType.ValidationError,
                             Stderr := msg }, none))
    (hsys : ∀ msg, P (some { IsError := true, ErrorType := ExecutionErrorType.SystemError,
                             Stderr := msg }, none))
    (hcmd : ∀ w1 cmd, P (executeCommand h w1 cmd).1) :
    P (GolangExecutor.Execute h w ctx req).1 := by
  unfold GolangExecutor.Execute
  split
  · exact hval _
  · split
    · exact hval _
    · split
      · exact hval _
      · split
        · exact hsys _
        · dsimp only
          split
          · exact hsys _
          · exact hcmd _ _

/-- An `*exec.ExitError` of `cmd.Run()` never carries the exit code 0. -/
theorem ProcRun.err_ExitError_ne_zero (p : ProcRun) (code : Int)
    (hp : p.err = some (RunError.ExitError code)) : code ≠ 0 := by
  cases p with
  | startFailed e t => simp [ProcRun.err] at hp
  | ran waitErr status watchErr copyErr out e fs t =>
    cases waitErr with
    | some we => simp [ProcRun.err] at hp
    | none =>
      by_cases hs : status.Success = true
      · cases watchErr with
        | some c => simp [ProcRun.err, hs] at hp
        | none => cases copyErr <;> simp [ProcRun.err, hs] at hp
      · simp only [ProcRun.err, hs, Bool.not_eq_true, Bool.not_false, if_true] at hp
        simp only [Bool.not_eq_true] at hs
        simp only [hs, Bool.not_false, if_true, Option.some.injEq, RunError.ExitError.injEq] at hp
        intro h0
        rw [← hp] at h0
        simp [WaitStatus.Success, h0] at hs

/-- The result of `executeCommand`, by the three kinds of error of `cmd.Run()`. -/
theorem executeCommand_classify (h : Host) (w : World) (cmd : Cmd) :
    ∃ r, executeCommand h w cmd = ((some r, none), spawn w cmd (h.run w cmd)) ∧
      r.Stdout = (h.run w cmd).stdout ∧ r.Stderr = (h.run w cmd).stderr ∧
      r.Duration = (h.run w cmd).elapsed ∧
      ((h.run w cmd).err = none →
        r.ExitCode = 0 ∧ r.ErrorType = ExecutionErrorType.NoError ∧ r.IsError = false) ∧
      (∀ c, (h.run w cmd).err = some (RunError.ExitError c) →
        c ≠ 0 ∧ r.ExitCode = c ∧ r.ErrorType = ExecutionErrorType.RuntimeError ∧
          r.IsError = true) ∧
      (∀ m, (h.run w cmd).err = some (RunError.Other m) →
        r.ExitCode = -1 ∧ r.ErrorType = ExecutionErrorType.SystemError ∧ r.IsError = true) := by
  refine ⟨_, rfl, rfl, rfl, rfl, ?_, ?_, ?_⟩
  · intro he
    simp [he]
  · intro c he
    have hc := ProcRun.err_ExitError_ne_zero _ c he
    simp [he, hc]
  · intro m he
    simp [he]

/-! ### C4: the outcome mapping of `executeCommand` -/

/-- C4: `executeCommand` returns a result that is this function of what
`cmd.Run()` reports. No error (the process ran and exited with code 0):
`ExitCode = 0`, `NoError`, `IsError = false`. An `*exec.ExitError` with code `c`
(the process ran and did not succeed; `c` is never 0): `ExitCode = c`,
`RuntimeError`, `IsError = true`. Any other error (the process could not be
started, or the run failed otherwise): `ExitCode = -1`, `SystemError`,
`IsError = true`. In terms of the process: exit status 0 with nothing else wrong
gives the first, exit status `c ≠ 0` the second with `ExitCode = c`, a failed
start the third. -/
theorem executeCommand_outcome (h : Host) (w : World) (cmd : Cmd) :
    ∃ r, (executeCommand h w cmd).1 = (some r, none) ∧
      ((h.run w cmd).err = none →
        r.ExitCode = 0 ∧ r.ErrorType = ExecutionErrorType.NoError ∧ r.IsError = false) ∧
      (∀ c, (h.run w cmd).err = some (RunError.ExitError c) →
        c ≠ 0 ∧ r.ExitCode = c ∧ r.ErrorType = ExecutionErrorType.RuntimeError ∧
          r.IsError = true) ∧
      (∀ m, (h.run w cmd).err = some (RunError.Other m) →
        r.ExitCode = -1 ∧ r.ErrorType = ExecutionErrorType.SystemError ∧ r.IsError = true) ∧
      (∀ out e fs t, h.run w cmd = ProcRun.ran none (WaitStatus.exited 0) none none out e fs t →
        r.ExitCode = 0 ∧ r.ErrorType = ExecutionErrorType.NoError ∧ r.IsError = false) ∧
      (∀ c watchErr copyErr out e fs t, c ≠ 0 →
        h.run w cmd = ProcRun.ran none (WaitStatus.exited c) watchErr copyErr out e fs t →
        r.ExitCode = (c : Int) ∧ r.ErrorType = ExecutionErrorType.RuntimeError ∧
          r.IsError = true) ∧
      (∀ m t, h.run w cmd = ProcRun.startFailed m t →
        r.ExitCode = -1 ∧ r.ErrorType = ExecutionErrorType.SystemError ∧ r.IsError = true) := by
  obtain ⟨r, hr, -, -, -, hnone, hexit, hother⟩ := executeCommand_classify h w cmd
  refine ⟨r, by rw [hr], hnone, hexit, hother, ?_, ?_, ?_⟩
  · intro out e fs t hp
    apply hnone
    rw [hp]
    rfl
  · intro c watchErr copyErr out e fs t hc hp
    have he : (h.run w cmd).err = some (RunError.ExitError (c : Int)) := by
      rw [hp]
      have hs : (WaitStatus.exited c).Success = false := by
        simp [WaitStatus.Success, WaitStatus.ExitCode, hc]
      simp [ProcRun.err, hs, WaitStatus.ExitCode]
    exact (hexit _ he).2
  · intro m t hp
    apply hother m
    rw [hp]
    rfl

/-- C4 at three hosts: the process exits with 0, the process exits with 7, the
process cannot be started. -/
theorem executeCommand_outcome_witness :
    (okHost.run {} demoCmd).err = none ∧
    (exit7Host.run {} demoCmd).err = some (RunError.ExitError 7) ∧
    (∃ r, (executeCommand okHost {} demoCmd).1 = (some r, none) ∧
      r.ExitCode = 0 ∧ r.ErrorType = ExecutionErrorType.NoError ∧ r.IsError = false) ∧
    (∃ r, (executeCommand exit7Host {} demoCmd).1 = (some r, none) ∧
      r.ExitCode = 7 ∧ r.ErrorType = ExecutionErrorType.RuntimeError ∧ r.IsError = true) ∧
    (∃ r, (executeCommand noLaunchHost {} demoCmd).1 = (some r, none) ∧
      r.ExitCode = -1 ∧ r.ErrorType = ExecutionErrorType.SystemError ∧ r.IsError = true) :=
  ⟨by decide, by decide,
    match executeCommand_outcome okHost {} demoCmd with
    | ⟨r, hr, hnone, _⟩ => ⟨r, hr, hnone (by decide)⟩,
    match executeCommand_outcome exit7Host {} demoCmd with
    | ⟨r, hr, _, hexit, _⟩ => ⟨r, hr, (hexit 7 (by decide)).2⟩,
    match executeCommand_outcome noLaunchHost {} demoCmd with
    | ⟨r, hr, _, _, _, _, _, hstart⟩ => ⟨r, hr, hstart _ _ rfl⟩⟩

/-! ### C5: the error flag -/

/-- C5: `executeCommand` and the `Execute` of each of the three runners return,
on every path, a result whose `IsError` is true if and only if its `ExitCode` is
not 0 or its `ErrorType` is not `NoError`. -/
theorem IsError_iff_failed (h : Host) (w : World) (ctx : Context) (req : ExecutionRequest)
    (cmd : Cmd) :
    (∃ r, (executeCommand h w cmd).1.1 = some r ∧
      (r.IsError = true ↔ r.ExitCode ≠ 0 ∨ r.ErrorType ≠ ExecutionErrorType.NoError)) ∧
    (∃ r, (ShellExecutor.Execute h w ctx req).1.1 = some r ∧
      (r.IsError = true ↔ r.ExitCode ≠ 0 ∨ r.ErrorType ≠ ExecutionErrorType.NoError)) ∧
    (∃ r, (PythonExecutor.Execute h w ctx req).1.1 = some r ∧
      (r.IsError = true ↔ r.ExitCode ≠ 0 ∨ r.ErrorType ≠ ExecutionErrorType.NoError)) ∧
    (∃ r, (GolangExecutor.Execute h w ctx req).1.1 = some r ∧
      (r.IsError = true ↔ r.ExitCode ≠ 0 ∨ r.ErrorType ≠ ExecutionErrorType.NoError)) := by
  have hcmd : ∀ w1 cmd1, ∃ r, (executeCommand h w1 cmd1).1.1 = some r ∧
      (r.IsError = true ↔ r.ExitCode ≠ 0 ∨ r.ErrorType ≠ ExecutionErrorType.NoError) := by
    intro w1 cmd1
    obtain ⟨r, hr, -, -, -, hnone, hexit, hother⟩ := executeCommand_classify h w1 cmd1
    refine ⟨r, by rw [hr], ?_⟩
    cases he : (h.run w1 cmd1).err with
    | none =>
      obtain ⟨h1, h2, h3⟩ := hnone he
      simp [h1, h2, h3]
    | some e =>
      cases e with
      | ExitError c =>
        obtain ⟨h0, h1, h2, h3⟩ := hexit c he
        simp [h1, h2, h3]
      | Other m =>
        obtain ⟨h1, h2, h3⟩ := hother m he
        simp [h1, h2, h3]
  refine ⟨hcmd w cmd, ?_, ?_, ?_⟩
  · exact shell_Execute_cases
      (fun ret => ∃ r, ret.1 = some r ∧
        (r.IsError = true ↔ r.ExitCode ≠ 0 ∨ r.ErrorType ≠ ExecutionErrorType.NoError))
      h w ctx req (fun _ => ⟨_, rfl, by simp⟩) hcmd
  · exact python_Execute_cases
      (fun ret => ∃ r, ret.1 = some r ∧
        (r.IsError = true ↔ r.ExitCode ≠ 0 ∨ r.ErrorType ≠ ExecutionErrorType.NoError))
      h w ctx req (fun _ => ⟨_, rfl, by simp⟩) (fun _ => ⟨_, rfl, by simp⟩) hcmd
  · exact golang_Execute_cases
      (fun ret => ∃ r, ret.1 = some r ∧
        (r.IsError = true ↔ r.ExitCode ≠ 0 ∨ r.ErrorType ≠ ExecutionErrorType.NoError))
      h w ctx req (fun _ => ⟨_, rfl, by simp⟩) (fun _ => ⟨_, rfl, by simp⟩) hcmd

/-! ### C6: the shell reads back the quoted arguments -/

/-- Between single quotes, the escaped form of an argument followed by the
closing quote adds exactly the argument to the word being read. -/
theorem posixWords_escaped (arg : GoString) :
    ∀ (acc rest : GoString),
      posixWords Quoting.single (some acc)
          (ReplaceAll arg '\'' "'\"'\"'".toList ++ ('\'' :: rest)) =
        posixWords Quoting.unquoted (some (acc ++ arg)) rest := by
  induction arg with
  | nil =>
    intro acc rest
    simp [ReplaceAll, posixWords]
  | cons c cs ih =>
    intro acc rest
    by_cases hc : c = '\''
    · subst hc
      have hstep : ∀ tail : GoString,
          posixWords Quoting.single (some acc) ("'\"'\"'".toList ++ tail) =
            posixWords Quoting.single (some (acc ++ ['\''])) tail := by
        intro tail
        simp [posixWords]
      rw [ReplaceAll, if_pos rfl, List.append_assoc, hstep, ih]
      simp
    · rw [ReplaceAll, if_neg hc, List.cons_append, posixWords, if_neg hc]
      simp only [Option.getD_some]
      rw [ih]
      simp

/-- One quoted argument, read from between two words, is a word of its own that
holds the argument. -/
theorem posixWords_quoted_arg (arg rest : GoString) :
    posixWords Quoting.unquoted none
        ("'".toList ++ ReplaceAll arg '\'' "'\"'\"'".toList ++ "'".toList ++ rest) =
      posixWords Quoting.unquoted (some arg) rest := by
  have h1 : "'".toList = ['\''] := rfl
  rw [h1, List.append_assoc, List.append_assoc, List.singleton_append, List.singleton_append,
    posixWords]
  simp only [Char.reduceEq, if_false, if_true, Option.getD_none]
  rw [posixWords_escaped, List.nil_append]

/-- The words of the joined, quoted arguments are the arguments. -/
theorem posixWords_quoted (args : List GoString) :
    posixWords Quoting.unquoted none (shellQuoteArgs args) = some args := by
  unfold shellQuoteArgs
  induction args with
  | nil => simp [Join, posixWords]
  | cons a t ih =>
    cases t with
    | nil =>
      have hq := posixWords_quoted_arg a []
      rw [List.append_nil] at hq
      simp only [List.map, Join]
      rw [hq]
      simp [posixWords]
    | cons b rest =>
      simp only [List.map, Join] at ih ⊢
      have h2 : " ".toList = [' '] := rfl
      rw [h2] at ih ⊢
      rw [List.append_assoc, posixWords_quoted_arg, List.singleton_append, posixWords.eq_4,
        if_pos rfl]
      rw [ih]
      rfl

/-- The command `set -- ` followed by the quoted arguments has the words `set`,
`--` and then the arguments. -/
theorem posixWords_set (args : List GoString) :
    posixWords Quoting.unquoted none ("set -- ".toList ++ shellQuoteArgs args) =
      some ("set".toList :: "--".toList :: args) := by
  have hs : "set -- ".toList = ['s', 'e', 't', ' ', '-', '-', ' '] := rfl
  rw [hs]
  simp only [List.cons_append, List.nil_append]
  have hord : ∀ (c : Char) (cur : Option GoString) (cs : GoString),
      c ≠ ' ' → c ≠ '\'' → c ≠ '"' → shellSpecial c = false →
      posixWords Quoting.unquoted cur (c :: cs) =
        posixWords Quoting.unquoted (some (cur.getD [] ++ [c])) cs := by
    intro c cur cs h1 h2 h3 h4
    cases cur <;> simp [posixWords, h1, h2, h3, h4]
  have hsp : ∀ (word : GoString) (cs : GoString),
      posixWords Quoting.unquoted (some word) (' ' :: cs) =
        (posixWords Quoting.unquoted none cs).map fun ws => word :: ws := by
    intro word cs
    simp [posixWords]
  rw [hord 's' _ _ (by decide) (by decide) (by decide) (by decide),
    hord 'e' _ _ (by decide) (by decide) (by decide) (by decide),
    hord 't' _ _ (by decide) (by decide) (by decide) (by decide), hsp,
    hord '-' _ _ (by decide) (by decide) (by decide) (by decide),
    hord '-' _ _ (by decide) (by decide) (by decide) (by decide), hsp,
    posixWords_quoted]
  rfl

/-- C6: for every list of arguments, splitting `shellQuoteArgs(args)` into
words by the quoting rules of the POSIX shell gives back exactly the arguments,
in order and unchanged, whatever characters they hold and also when one is
empty; the command `set -- <quoted>` therefore has the words `set`, `--` and the
arguments, so positional parameter `i` is the `i`-th argument. When the shell is
not PowerShell and there is an argument, the script handed to the shell is
`set -- <quoted>; <script>`; for the script `echo $1` with the arguments `a b`
and `c` it is `set -- 'a b' 'c'; echo $1`. -/
theorem shellQuoteArgs_roundtrip (GOOS : GoString) (LookPath : GoString → Bool)
    (req : ExecutionRequest) :
    posixWords Quoting.unquoted none (shellQuoteArgs req.Args) = some req.Args ∧
    posixWords Quoting.unquoted none ("set -- ".toList ++ shellQuoteArgs req.Args) =
      some ("set".toList :: "--".toList :: req.Args) ∧
    (req.Args ≠ [] →
      GOOS ≠ "windows".toList ∨
        ((detectWindowsShell LookPath).1 ≠ "powershell.exe".toList ∧
          (detectWindowsShell LookPath).1 ≠ "pwsh.exe".toList) →
      (shellInvocation GOOS LookPath req).2.2 =
        "set -- ".toList ++ shellQuoteArgs req.Args ++ "; ".toList ++ req.Script) ∧
    (shellInvocation "linux".toList LookPath echoRequest).2.2 =
      "set -- 'a b' 'c'; echo $1".toList := by
  refine ⟨posixWords_quoted _, posixWords_set _, ?_, rfl⟩
  intro hargs hshell
  have hlen : req.Args.length > 0 := List.length_pos.mpr hargs
  unfold shellInvocation
  by_cases hw : GOOS = "windows".toList
  · rcases hshell with hne | ⟨hp1, hp2⟩
    · exact absurd hw hne
    · rw [if_pos hw]
      simp only [hp1, hp2, or_self, if_false, hlen, if_true]
  · rw [if_neg hw]
    simp only [hlen, if_true]

/-- C6 at the specification's scenario, on a Unix host. -/
theorem shellQuoteArgs_roundtrip_witness :
    echoRequest.Args ≠ [] ∧
    posixWords Quoting.unquoted none (shellQuoteArgs echoRequest.Args) =
      some ["a b".toList, "c".toList] ∧
    (shellInvocation "linux".toList okHost.LookPath echoRequest).2.2 =
      "set -- ".toList ++ shellQuoteArgs echoRequest.Args ++ "; ".toList ++ echoRequest.Script :=
  ⟨by decide,
    (shellQuoteArgs_roundtrip "linux".toList okHost.LookPath echoRequest).1,
    (shellQuoteArgs_roundtrip "linux".toList okHost.LookPath echoRequest).2.2.1 (by decide)
      (Or.inl (by decide))⟩

/-! ### C7: what a runner stages is gone when it returns -/

theorem World.has_eq_false_iff (w : World) (path : GoString) :
    w.has path = false ↔ path ∉ w.paths := by
  unfold World.has World.paths
  rw [Bool.eq_false_iff, Ne, List.any_eq_true]
  constructor
  · intro hne hin
    obtain ⟨e, he, hpath⟩ := List.mem_map.mp hin
    exact hne ⟨e, he, by simp [hpath]⟩
  · rintro hne ⟨e, he, hpath⟩
    apply hne
    have hep : e.1 = path := by simpa using hpath
    exact List.mem_map.mpr ⟨e, he, hep⟩

/-- A successful try of the creation loop yields a path that was not there and
puts the new entry in front of the others. -/
theorem createTempLoop_ok (h : Host) (w : World) (pre suf : GoString) (node : Node)
    (rs : List GoString) (name : GoString) (w1 : World)
    (hok : createTempLoop h w pre suf node rs = Except.ok (name, w1)) :
    name ∉ w.paths ∧ w1.paths = name :: w.paths ∧
      w1.trace = w.trace ++ [Event.created name] := by
  induction rs with
  | nil => simp [createTempLoop] at hok
  | cons r rs ih =>
    rw [createTempLoop] at hok
    by_cases hex : w.has (h.join h.TempDir (pre ++ r ++ suf)) = true
    · rw [if_pos hex] at hok
      exact ih hok
    · rw [if_neg hex] at hok
      split at hok
      · exact absurd hok (by simp)
      · simp only [Except.ok.injEq, Prod.mk.injEq] at hok
        obtain ⟨hname, hw1⟩ := hok
        subst hname
        subst hw1
        refine ⟨?_, rfl, rfl⟩
        apply (World.has_eq_false_iff _ _).mp
        simpa using hex

theorem WriteString_paths (h : Host) (w : World) (name code : GoString) :
    (WriteString h w name code).2.paths = w.paths := by
  unfold WriteString
  cases h.writeErr name with
  | some e => rfl
  | none =>
    simp only [World.paths, List.map_map]
    apply List.map_congr_left
    intro e _
    by_cases he : e.1 = name <;> simp [he]

theorem WriteFile_paths (h : Host) (w : World) (dir base code : GoString) :
    (WriteFile h w dir base code).2.paths = w.paths := by
  unfold WriteFile
  cases h.writeErr (h.join dir base) with
  | some e => rfl
  | none =>
    simp only [World.paths, List.map_map]
    apply List.map_congr_left
    intro e _
    by_cases he : e.1 = dir <;> simp [he]

theorem spawn_paths (w : World) (cmd : Cmd) (p : ProcRun) :
    (spawn w cmd p).paths = w.paths := by
  simp only [spawn, World.paths, List.map_map]
  apply List.map_congr_left
  intro e _
  by_cases he : e.1 = cmd.Dir <;> simp [he]

theorem executeCommand_paths (h : Host) (w : World) (cmd : Cmd) :
    (executeCommand h w cmd).2.paths = w.paths :=
  spawn_paths w cmd (h.run w cmd)

/-- Removing the entry that was put in front of the others, and was not among
them, leaves the others. -/
theorem Remove_paths (w : World) (name : GoString) (rest : List GoString)
    (hw : w.paths = name :: rest) (hnew : name ∉ rest) :
    (Remove w name).paths = rest := by
  have hfilter : (Remove w name).paths = w.paths.filter fun q => q ≠ name := by
    simp only [Remove, World.paths, List.filter_map]
    rfl
  rw [hfilter, hw, List.filter_cons_of_neg (by simp)]
  apply List.filter_eq_self.mpr
  intro q hq
  have hne : q ≠ name := fun hqn => hnew (hqn ▸ hq)
  simpa using hne

/-- C7: on every path through `PythonExecutor.Execute` and
`GolangExecutor.Execute` (validation failure, creation failure, write failure,
and every outcome of the process: success, failure, failed launch, kill on
timeout or cancellation) the set of entries of the temporary area after the
call equals the set before it; in particular the temporary file, or the
temporary directory with what it holds, that the call created is not there
when the call returns. -/
theorem temp_area_restored (h : Host) (w : World) (ctx : Context) (req : ExecutionRequest) :
    (PythonExecutor.Execute h w ctx req).2.paths = w.paths ∧
    (GolangExecutor.Execute h w ctx req).2.paths = w.paths ∧
    (∀ tmpFile w1, CreateTemp h w "mcp_python_".toList ".py".toList = Except.ok (tmpFile, w1) →
      w1.has tmpFile = true ∧ (PythonExecutor.Execute h w ctx req).2.has tmpFile = false) ∧
    (∀ tmpDir w1, MkdirTemp h w "mcp_golang_".toList = Except.ok (tmpDir, w1) →
      w1.has tmpDir = true ∧ (GolangExecutor.Execute h w ctx req).2.has tmpDir = false) := by
  have hpy : (PythonExecutor.Execute h w ctx req).2.paths = w.paths := by
    unfold PythonExecutor.Execute
    split
    · rfl
    · split
      · rfl
      · rename_i tmpFile w1 hct
        obtain ⟨hnew, hp, -⟩ := createTempLoop_ok _ _ _ _ _ _ _ _ hct
        dsimp only
        apply Remove_paths _ _ _ ?_ hnew
        split
        · rename_i err w2 hws
          have hpaths := WriteString_paths h w1 tmpFile req.Code
          rw [hws] at hpaths
          exact hpaths.trans hp
        · rename_i w2 hws
          have hpaths := WriteString_paths h w1 tmpFile req.Code
          rw [hws] at hpaths
          rw [executeCommand_paths]
          exact hpaths.trans hp
  have hgo : (GolangExecutor.Execute h w ctx req).2.paths = w.paths := by
    unfold GolangExecutor.Execute
    split
    · rfl
    · split
      · rfl
      · split
        · rfl
        · split
          · rfl
          · rename_i tmpDir w1 hct
            obtain ⟨hnew, hp, -⟩ := createTempLoop_ok _ _ _ _ _ _ _ _ hct
            dsimp only
            apply Remove_paths _ _ _ ?_ hnew
            split
            · rename_i err w2 hws
              have hpaths := WriteFile_paths h w1 tmpDir "main.go".toList req.Code
              rw [hws] at hpaths
              exact hpaths.trans hp
            · rename_i w2 hws
              have hpaths := WriteFile_paths h w1 tmpDir "main.go".toList req.Code
              rw [hws] at hpaths
              rw [executeCommand_paths]
              exact hpaths.trans hp
  refine ⟨hpy, hgo, ?_, ?_⟩
  · intro tmpFile w1 hct
    obtain ⟨hnew, hp, -⟩ := createTempLoop_ok _ _ _ _ _ _ _ _ hct
    constructor
    · cases hhas : w1.has tmpFile
      · rw [World.has_eq_false_iff, hp] at hhas
        exact absurd (List.mem_cons_self _ _) hhas
      · rfl
    · rw [World.has_eq_false_iff, hpy]
      exact hnew
  · intro tmpDir w1 hct
    obtain ⟨hnew, hp, -⟩ := createTempLoop_ok _ _ _ _ _ _ _ _ hct
    constructor
    · cases hhas : w1.has tmpDir
      · rw [World.has_eq_false_iff, hp] at hhas
        exact absurd (List.mem_cons_self _ _) hhas
      · rfl
    · rw [World.has_eq_false_iff, hgo]
      exact hnew

/-- C7 on a host where the staged program runs: the file `/tmp/mcp_python_123.py`
and the directory `/tmp/mcp_golang_123` are created and are gone on return. -/
theorem temp_area_restored_witness :
    CreateTemp okHost {} "mcp_python_".toList ".py".toList =
      Except.ok ("/tmp/mcp_python_123.py".toList,
        { temp := [("/tmp/mcp_python_123.py".toList, Node.file [])],
          trace := [Event.created "/tmp/mcp_python_123.py".toList] }) ∧
    MkdirTemp okHost {} "mcp_golang_".toList =
      Except.ok ("/tmp/mcp_golang_123".toList,
        { temp := [("/tmp/mcp_golang_123".toList, Node.dir [])],
          trace := [Event.created "/tmp/mcp_golang_123".toList] }) ∧
    (PythonExecutor.Execute okHost {} {} pyRequest).2.has "/tmp/mcp_python_123.py".toList =
      false ∧
    (GolangExecutor.Execute okHost {} {} goRequest).2.has "/tmp/mcp_golang_123".toList = false :=
  ⟨rfl, rfl,
    ((temp_area_restored okHost {} {} pyRequest).2.2.1 _ _ rfl).2,
    ((temp_area_restored okHost {} {} goRequest).2.2.2 _ _ rfl).2⟩

/-! ### C8: what a system failure leaves in `Stderr` -/

/-- The staging failures of the Python runner keep the host's message: when the
temporary file cannot be created, or the code cannot be written to it, the
result is a `SystemError` whose `Stderr` ends with the error of the host. -/
theorem python_staging_failure_keeps_message (h : Host) (w : World) (ctx : Context)
    (req : ExecutionRequest) (hcode : TrimSpace req.Code ≠ []) (err : GoString) :
    (CreateTemp h w "mcp_python_".toList ".py".toList = Except.error err →
      (PythonExecutor.Execute h w ctx req).1 =
        (some { IsError := true, ErrorType := ExecutionErrorType.SystemError,
                Stderr := "Error creating temp file: ".toList ++ err }, none)) ∧
    (∀ tmpFile w1, CreateTemp h w "mcp_python_".toList ".py".toList = Except.ok (tmpFile, w1) →
      h.writeErr tmpFile = some err →
      (PythonExecutor.Execute h w ctx req).1 =
        (some { IsError := true, ErrorType := ExecutionErrorType.SystemError,
                Stderr := "Error writing to temp file: ".toList ++ err }, none)) := by
  constructor
  · intro hct
    rw [PythonExecutor.Execute, if_neg hcode]
    simp only [hct]
  · intro tmpFile w1 hct hwe
    rw [PythonExecutor.Execute, if_neg hcode]
    simp only [hct, WriteString, hwe]

/-- The staging failures of the Go runner keep the host's message: when the
temporary directory cannot be created, or `main.go` cannot be written, the
result is a `SystemError` whose `Stderr` ends with the error of the host. -/
theorem golang_staging_failure_keeps_message (h : Host) (w : World) (ctx : Context)
    (req : ExecutionRequest) (hcode : TrimSpace req.Code ≠ [])
    (hpkg : Contains req.Code "package main".toList = true)
    (hmain : Contains req.Code "func main()".toList = true) (err : GoString) :
    (MkdirTemp h w "mcp_golang_".toList = Except.error err →
      (GolangExecutor.Execute h w ctx req).1 =
        (some { IsError := true, ErrorType := ExecutionErrorType.SystemError,
                Stderr := "Error creating temp directory: ".toList ++ err }, none)) ∧
    (∀ tmpDir w1, MkdirTemp h w "mcp_golang_".toList = Except.ok (tmpDir, w1) →
      h.writeErr (h.join tmpDir "main.go".toList) = some err →
      (GolangExecutor.Execute h w ctx req).1 =
        (some { IsError := true, ErrorType := ExecutionErrorType.SystemError,
                Stderr := "Error writing Go file: ".toList ++ err }, none)) := by
  constructor
  · intro hct
    rw [GolangExecutor.Execute, if_neg hcode]
    simp only [hpkg, hmain, Bool.not_true, Bool.false_eq_true, if_false, hct]
  · intro tmpDir w1 hct hwe
    rw [GolangExecutor.Execute, if_neg hcode]
    simp only [hpkg, hmain, Bool.not_true, Bool.false_eq_true, if_false, hct, WriteFile, hwe]

/-- C8 fails on the launch path: on a host without the interpreter, `cmd.Run()`
fails with `exec: "python3": executable file not found in $PATH`; the result
of `PythonExecutor.Execute` is a `SystemError` with exit code -1, but its
`Stderr` is empty, so the message of the host is not in it. -/
theorem launch_failure_message_lost :
    (noLaunchHost.run {} (CommandContext {} "python3".toList [])).err =
      some (RunError.Other "exec: \"python3\": executable file not found in $PATH".toList) ∧
    ∃ r, (PythonExecutor.Execute noLaunchHost {} {} pyRequest).1 = (some r, none) ∧
      r.ErrorType = ExecutionErrorType.SystemError ∧ r.ExitCode = -1 ∧ r.IsError = true ∧
      r.Stderr = [] ∧
      ¬ ("exec: \"python3\": executable file not found in $PATH".toList <:+: r.Stderr) := by
  refine ⟨by decide, { ExitCode := -1, Stdout := [], Stderr := [], Duration := 10,
                       IsError := true, ErrorType := ExecutionErrorType.SystemError },
    by decide, rfl, rfl, rfl, rfl, ?_⟩
  intro hin
  have hnil := List.eq_nil_of_infix_nil hin
  exact absurd hnil (by decide)

/-! ### C9: failures are results, not errors -/

/-- C9: for every host, world, context, request and command, and so for every
outcome of validation, staging and the process (a cancelled or killed one
included), `executeCommand` and the `Execute` of each of the three runners
return a non-nil result and a nil error. -/
theorem result_never_nil (h : Host) (w : World) (ctx : Context) (req : ExecutionRequest)
    (cmd : Cmd) :
    (∃ r, (executeCommand h w cmd).1 = (some r, none)) ∧
    (∃ r, (ShellExecutor.Execute h w ctx req).1 = (some r, none)) ∧
    (∃ r, (PythonExecutor.Execute h w ctx req).1 = (some r, none)) ∧
    (∃ r, (GolangExecutor.Execute h w ctx req).1 = (some r, none)) := by
  have hcmd : ∀ w1 cmd1, ∃ r, (executeCommand h w1 cmd1).1 = (some r, none) :=
    fun _ _ => ⟨_, rfl⟩
  exact ⟨hcmd w cmd,
    shell_Execute_cases (fun ret => ∃ r, ret = (some r, none)) h w ctx req
      (fun _ => ⟨_, rfl⟩) hcmd,
    python_Execute_cases (fun ret => ∃ r, ret = (some r, none)) h w ctx req
      (fun _ => ⟨_, rfl⟩) (fun _ => ⟨_, rfl⟩) hcmd,
    golang_Execute_cases (fun ret => ∃ r, ret = (some r, none)) h w ctx req
      (fun _ => ⟨_, rfl⟩) (fun _ => ⟨_, rfl⟩) hcmd⟩

/-! ### C10: no result is a `TimeoutError` -/

/-- The kind of a result of `executeCommand` is one of three. -/
theorem executeCommand_kind (h : Host) (w : World) (cmd : Cmd) :
    ∃ r, (executeCommand h w cmd).1.1 = some r ∧
      (r.ErrorType = ExecutionErrorType.NoError ∨
        r.ErrorType = ExecutionErrorType.ValidationError ∨
        r.ErrorType = ExecutionErrorType.RuntimeError ∨
        r.ErrorType = ExecutionErrorType.SystemError) := by
  obtain ⟨r, hr, -, -, -, hnone, hexit, hother⟩ := executeCommand_classify h w cmd
  refine ⟨r, by rw [hr], ?_⟩
  cases he : (h.run w cmd).err with
  | none => exact Or.inl (hnone he).2.1
  | some e =>
    cases e with
    | ExitError c => exact Or.inr (Or.inr (Or.inl (hexit c he).2.2.1))
    | Other m => exact Or.inr (Or.inr (Or.inr (hother m he).2.1))

/-- C10: the kind of every result of `executeCommand` and of the `Execute` of
each runner is `NoError`, `ValidationError`, `RuntimeError` or `SystemError`,
never `TimeoutError`. A process ended because the deadline passed gets the
same result as a process with the same wait status, output and other errors
that ended for another reason: whenever the process did not succeed, and
whenever the other run was stopped through its context too, the two results
are equal. -/
theorem never_TimeoutError (h : Host) (w : World) (ctx : Context) (req : ExecutionRequest)
    (cmd : Cmd) :
    (∃ r, (executeCommand h w cmd).1.1 = some r ∧
      (r.ErrorType = ExecutionErrorType.NoError ∨
        r.ErrorType = ExecutionErrorType.ValidationError ∨
        r.ErrorType = ExecutionErrorType.RuntimeError ∨
        r.ErrorType = ExecutionErrorType.SystemError) ∧
      r.ErrorType ≠ ExecutionErrorType.TimeoutError) ∧
    (∃ r, (ShellExecutor.Execute h w ctx req).1.1 = some r ∧
      (r.ErrorType = ExecutionErrorType.NoError ∨
        r.ErrorType = ExecutionErrorType.ValidationError ∨
        r.ErrorType = ExecutionErrorType.RuntimeError ∨
        r.ErrorType = ExecutionErrorType.SystemError) ∧
      r.ErrorType ≠ ExecutionErrorType.TimeoutError) ∧
    (∃ r, (PythonExecutor.Execute h w ctx req).1.1 = some r ∧
      (r.ErrorType = ExecutionErrorType.NoError ∨
        r.ErrorType = ExecutionErrorType.ValidationError ∨
        r.ErrorType = ExecutionErrorType.RuntimeError ∨
        r.ErrorType = ExecutionErrorType.SystemError) ∧
      r.ErrorType ≠ ExecutionErrorType.TimeoutError) ∧
    (∃ r, (GolangExecutor.Execute h w ctx req).1.1 = some r ∧
      (r.ErrorType = ExecutionErrorType.NoError ∨
        r.ErrorType = ExecutionErrorType.ValidationError ∨
        r.ErrorType = ExecutionErrorType.RuntimeError ∨
        r.ErrorType = ExecutionErrorType.SystemError) ∧
      r.ErrorType ≠ ExecutionErrorType.TimeoutError) ∧
    (∀ waitErr status copyErr out e fs t (cause : Option GoString),
      status.Success = false ∨ cause.isSome = true →
      (executeCommand
          (h.answering
            (ProcRun.ran waitErr status (some CtxErr.DeadlineExceeded.Error) copyErr out e fs t))
          w cmd).1 =
        (executeCommand (h.answering (ProcRun.ran waitErr status cause copyErr out e fs t))
          w cmd).1) := by
  have hkind : ∀ ret : Option ExecutionResult × Option GoString,
      (∃ r, ret.1 = some r ∧
        (r.ErrorType = ExecutionErrorType.NoError ∨
          r.ErrorType = ExecutionErrorType.ValidationError ∨
          r.ErrorType = ExecutionErrorType.RuntimeError ∨
          r.ErrorType = ExecutionErrorType.SystemError)) →
      ∃ r, ret.1 = some r ∧
        (r.ErrorType = ExecutionErrorType.NoError ∨
          r.ErrorType = ExecutionErrorType.ValidationError ∨
          r.ErrorType = ExecutionErrorType.RuntimeError ∨
          r.ErrorType = ExecutionErrorType.SystemError) ∧
        r.ErrorType ≠ ExecutionErrorType.TimeoutError := by
    rintro ret ⟨r, hr, hk⟩
    refine ⟨r, hr, hk, ?_⟩
    rcases hk with hk | hk | hk | hk <;> rw [hk] <;> decide
  refine ⟨hkind _ (executeCommand_kind h w cmd), hkind _ ?_, hkind _ ?_, hkind _ ?_, ?_⟩
  · exact shell_Execute_cases
      (fun ret => ∃ r, ret.1 = some r ∧
        (r.ErrorType = ExecutionErrorType.NoError ∨
          r.ErrorType = ExecutionErrorType.ValidationError ∨
          r.ErrorType = ExecutionErrorType.RuntimeError ∨
          r.ErrorType = ExecutionErrorType.SystemError))
      h w ctx req (fun _ => ⟨_, rfl, Or.inr (Or.inl rfl)⟩) (executeCommand_kind h)
  · exact python_Execute_cases
      (fun ret => ∃ r, ret.1 = some r ∧
        (r.ErrorType = ExecutionErrorType.NoError ∨
          r.ErrorType = ExecutionErrorType.ValidationError ∨
          r.ErrorType = ExecutionErrorType.RuntimeError ∨
          r.ErrorType = ExecutionErrorType.SystemError))
      h w ctx req (fun _ => ⟨_, rfl, Or.inr (Or.inl rfl)⟩)
      (fun _ => ⟨_, rfl, Or.inr (Or.inr (Or.inr rfl))⟩) (executeCommand_kind h)
  · exact golang_Execute_cases
      (fun ret => ∃ r, ret.1 = some r ∧
        (r.ErrorType = ExecutionErrorType.NoError ∨
          r.ErrorType = ExecutionErrorType.ValidationError ∨
          r.ErrorType = ExecutionErrorType.RuntimeError ∨
          r.ErrorType = ExecutionErrorType.SystemError))
      h w ctx req (fun _ => ⟨_, rfl, Or.inr (Or.inl rfl)⟩)
      (fun _ => ⟨_, rfl, Or.inr (Or.inr (Or.inr rfl))⟩) (executeCommand_kind h)
  · intro waitErr status copyErr out e fs t cause hcause
    cases waitErr with
    | some we => rfl
    | none =>
      cases hs : status.Success with
      | false => simp [executeCommand, Host.answering, ProcRun.err, hs, ProcRun.stdout,
          ProcRun.stderr, ProcRun.elapsed]
      | true =>
        rcases hcause with hf | hsome
        · rw [hs] at hf
          exact absurd hf (by decide)
        · cases cause with
          | none => exact absurd hsome (by decide)
          | some c =>
            simp [executeCommand, Host.answering, ProcRun.err, hs, ProcRun.stdout,
              ProcRun.stderr, ProcRun.elapsed]

/-- C10 for a process killed by signal 9: killed at the deadline, or killed by
something else with the context still live, the result is the same, a
`RuntimeError` with exit code -1. -/
theorem never_TimeoutError_witness :
    (WaitStatus.signaled 9).Success = false ∧
    (executeCommand
        (okHost.answering
          (ProcRun.ran none (WaitStatus.signaled 9) (some CtxErr.DeadlineExceeded.Error) none
            [] [] [] 5))
        {} demoCmd).1 =
      (executeCommand
        (okHost.answering (ProcRun.ran none (WaitStatus.signaled 9) none none [] [] [] 5))
        {} demoCmd).1 ∧
    (executeCommand
        (okHost.answering
          (ProcRun.ran none (WaitStatus.signaled 9) (some CtxErr.DeadlineExceeded.Error) none
            [] [] [] 5))
        {} demoCmd).1 =
      (some { ExitCode := -1, Duration := 5, IsError := true,
              ErrorType := ExecutionErrorType.RuntimeError }, none) :=
  ⟨by decide,
    (never_TimeoutError okHost {} {} echoRequest demoCmd).2.2.2.2 none (WaitStatus.signaled 9)
      none [] [] [] 5 none (Or.inl (by decide)),
    by decide⟩

/-! ### C11: the arguments handed to PowerShell -/

/-- What `ShellExecutor.Execute` hands to PowerShell: the script itself when
there is no argument, and otherwise one single-quoted literal that holds all the
arguments joined by a blank, with every single quote doubled. -/
theorem shellInvocation_powershell (LookPath : GoString → Bool) (req : ExecutionRequest)
    (hps : (detectWindowsShell LookPath).1 = "powershell.exe".toList ∨
      (detectWindowsShell LookPath).1 = "pwsh.exe".toList) :
    (req.Args = [] → (shellInvocation "windows".toList LookPath req).2.2 = req.Script) ∧
    (req.Args ≠ [] → (shellInvocation "windows".toList LookPath req).2.2 =
      "$args = @('".toList ++ ReplaceAll (Join req.Args " ".toList) '\'' "''".toList ++
        "'); ".toList ++ req.Script) := by
  constructor
  · intro hargs
    unfold shellInvocation
    rw [if_pos rfl]
    simp only [hps, if_true, hargs, List.length_nil, gt_iff_lt, Nat.lt_irrefl, if_false]
  · intro hargs
    have hlen : req.Args.length > 0 := List.length_pos.mpr hargs
    unfold shellInvocation
    rw [if_pos rfl]
    simp only [hps, if_true, hlen]

/-- With exactly one argument the script handed to PowerShell is the array
assignment of the specification: one literal, the argument with its single
quotes doubled. -/
theorem shellInvocation_powershell_one_arg (LookPath : GoString → Bool) (req : ExecutionRequest)
    (sep arg : GoString)
    (hps : (detectWindowsShell LookPath).1 = "powershell.exe".toList ∨
      (detectWindowsShell LookPath).1 = "pwsh.exe".toList)
    (hone : req.Args = [arg]) :
    (shellInvocation "windows".toList LookPath req).2.2 =
      psArrayAssignment sep req.Args req.Script := by
  have hne : req.Args ≠ [] := by rw [hone]; simp
  rw [(shellInvocation_powershell LookPath req hps).2 hne, hone]
  simp only [psArrayAssignment, psLiteral, List.map, Join]
  have h1 : "$args = @('".toList = "$args = @(".toList ++ "'".toList := rfl
  have h2 : "'); ".toList = "'".toList ++ "); ".toList := rfl
  rw [h1, h2]
  simp only [List.append_assoc]

/-- The one-argument case on a Windows host where `pwsh.exe` is found: the
argument `it's` is handed over as the literal `'it''s'`. -/
theorem shellInvocation_powershell_one_arg_example :
    (shellInvocation "windows".toList pwshHost.LookPath oneArgRequest).2.2 =
      psArrayAssignment ", ".toList oneArgRequest.Args oneArgRequest.Script ∧
    (shellInvocation "windows".toList pwshHost.LookPath oneArgRequest).2.2 =
      "$args = @('it''s'); Write-Output $args[0]".toList :=
  ⟨shellInvocation_powershell_one_arg pwshHost.LookPath oneArgRequest ", ".toList
      "it's".toList (Or.inr (by decide)) rfl,
    by decide⟩

/-- C11 fails when there is more than one argument. On a Windows host where
`pwsh.exe` is found, the script `Write-Output $args[0]` with the arguments `a`
and `b` is handed to PowerShell as `$args = @('a b'); Write-Output $args[0]`:
the array has the single element `a b`. It is not the array assignment with one
literal per argument, whatever separates the literals. -/
theorem powershell_args_merged :
    shellInvocation pwshHost.GOOS pwshHost.LookPath twoArgRequest =
      ("pwsh.exe".toList, "-Command".toList,
        "$args = @('a b'); Write-Output $args[0]".toList) ∧
    psArrayAssignment ", ".toList twoArgRequest.Args twoArgRequest.Script =
      "$args = @('a', 'b'); Write-Output $args[0]".toList ∧
    ∀ sep : GoString,
      (shellInvocation pwshHost.GOOS pwshHost.LookPath twoArgRequest).2.2 ≠
        psArrayAssignment sep twoArgRequest.Args twoArgRequest.Script := by
  refine ⟨by decide, by decide, ?_⟩
  intro sep heq
  have hchar := congrArg (fun l : GoString => (l.drop 12).head?) heq
  have hcode :
      ((shellInvocation pwshHost.GOOS pwshHost.LookPath twoArgRequest).2.2.drop 12).head? =
        some ' ' := by decide
  have hspec :
      ((psArrayAssignment sep twoArgRequest.Args twoArgRequest.Script).drop 12).head? =
        some '\'' := rfl
  simp only [hcode, hspec] at hchar
  exact absurd hchar (by decide)

/-! ### C12: which shell is used -/

/-- The shell and the flag of `detectWindowsShell`, for any lookup: the first
candidate found, `bash` when none is, and `-Command` for the two PowerShells
only. -/
theorem detectWindowsShell_eq (LookPath : GoString → Bool) :
    (detectWindowsShell LookPath).1 = (shellCandidates.find? LookPath).getD "bash".toList ∧
    (detectWindowsShell LookPath).2 =
      (if (detectWindowsShell LookPath).1 = "pwsh.exe".toList ∨
          (detectWindowsShell LookPath).1 = "powershell.exe".toList
        then "-Command".toList else "-c".toList) := by
  unfold detectWindowsShell shellCandidates
  dsimp only
  by_cases h1 : LookPath "pwsh.exe".toList = true
  · rw [if_pos h1, List.find?_cons_of_pos _ h1]
    exact ⟨rfl, (if_pos (Or.inl rfl)).symm⟩
  · rw [if_neg h1, List.find?_cons_of_neg _ h1]
    by_cases h2 : LookPath "powershell.exe".toList = true
    · rw [if_pos h2, List.find?_cons_of_pos _ h2]
      exact ⟨rfl, (if_pos (Or.inr rfl)).symm⟩
    · rw [if_neg h2, List.find?_cons_of_neg _ h2]
      by_cases h3 : LookPath "C:\\Program Files\\Git\\bin\\bash.exe".toList = true
      · rw [List.find?_cons_of_pos _ h3, List.find?_cons_of_pos _ h3]
        dsimp only
        exact ⟨rfl, (if_neg (by decide)).symm⟩
      · rw [List.find?_cons_of_neg _ h3, List.find?_cons_of_neg _ h3]
        by_cases h4 : LookPath "C:\\Program Files (x86)\\Git\\bin\\bash.exe".toList = true
        · rw [List.find?_cons_of_pos _ h4, List.find?_cons_of_pos _ h4]
          dsimp only
          exact ⟨rfl, (if_neg (by decide)).symm⟩
        · rw [List.find?_cons_of_neg _ h4, List.find?_cons_of_neg _ h4, List.find?_nil]
          dsimp only
          by_cases h5 : LookPath "bash.exe".toList = true
          · rw [if_pos h5, List.find?_cons_of_pos _ h5]
            exact ⟨rfl, (if_neg (by decide)).symm⟩
          · rw [if_neg h5, List.find?_cons_of_neg _ h5, List.find?_nil]
            exact ⟨rfl, (if_neg (by decide)).symm⟩

/-- C12: for every lookup predicate, `detectWindowsShell` returns the first of
`pwsh.exe`, `powershell.exe`, `C:\Program Files\Git\bin\bash.exe`,
`C:\Program Files (x86)\Git\bin\bash.exe`, `bash.exe` for which the lookup
succeeds, and `bash` when none does; the flag is `-Command` when the shell is
`pwsh.exe` or `powershell.exe` and `-c` otherwise. On a host that is not Windows
the shell runner uses `bash` with `-c` whatever the lookup answers: these are
the shell and the flag it computes, and the program and first argument of the
one command it runs. -/
theorem shell_resolution (h : Host) (w : World) (ctx : Context) (req : ExecutionRequest) :
    (detectWindowsShell h.LookPath).1 =
      (shellCandidates.find? h.LookPath).getD "bash".toList ∧
    (detectWindowsShell h.LookPath).2 =
      (if (detectWindowsShell h.LookPath).1 = "pwsh.exe".toList ∨
          (detectWindowsShell h.LookPath).1 = "powershell.exe".toList
        then "-Command".toList else "-c".toList) ∧
    (h.GOOS ≠ "windows".toList →
      (shellInvocation h.GOOS h.LookPath req).1 = "bash".toList ∧
      (shellInvocation h.GOOS h.LookPath req).2.1 = "-c".toList) ∧
    (h.GOOS ≠ "windows".toList → TrimSpace req.Script ≠ [] →
      ∃ cmd, (ShellExecutor.Execute h w ctx req).2.trace = w.trace ++ [Event.spawned cmd] ∧
        cmd.Name = "bash".toList ∧ cmd.Args.head? = some "-c".toList) := by
  have hinv : h.GOOS ≠ "windows".toList →
      shellInvocation h.GOOS h.LookPath req =
        ("bash".toList, "-c".toList,
          if req.Args.length > 0 then
            "set -- ".toList ++ shellQuoteArgs req.Args ++ "; ".toList ++ req.Script
          else req.Script) := by
    intro hw
    unfold shellInvocation
    rw [if_neg hw]
  refine ⟨(detectWindowsShell_eq h.LookPath).1, (detectWindowsShell_eq h.LookPath).2, ?_, ?_⟩
  · intro hw
    rw [hinv hw]
    exact ⟨rfl, rfl⟩
  · intro hw hs
    unfold ShellExecutor.Execute
    rw [if_neg hs, hinv hw]
    dsimp only
    refine ⟨_, rfl, ?_, ?_⟩
    · split <;> rfl
    · split <;> rfl

/-- C12 on a Windows host where only the second Git Bash path and `bash.exe`
are found, and on a Unix host where every lookup succeeds. -/
theorem shell_resolution_witness :
    unixAllFoundHost.GOOS ≠ "windows".toList ∧
    TrimSpace echoRequest.Script ≠ [] ∧
    detectWindowsShell gitBashHost.LookPath =
      ("C:\\Program Files (x86)\\Git\\bin\\bash.exe".toList, "-c".toList) ∧
    detectWindowsShell unixAllFoundHost.LookPath = ("pwsh.exe".toList, "-Command".toList) ∧
    (shellInvocation unixAllFoundHost.GOOS unixAllFoundHost.LookPath echoRequest).1 =
      "bash".toList ∧
    (shellInvocation unixAllFoundHost.GOOS unixAllFoundHost.LookPath echoRequest).2.1 =
      "-c".toList ∧
    ∃ cmd, (ShellExecutor.Execute unixAllFoundHost {} {} echoRequest).2.trace =
        ({} : World).trace ++ [Event.spawned cmd] ∧
      cmd.Name = "bash".toList ∧ cmd.Args.head? = some "-c".toList :=
  ⟨by decide, by decide, by decide, by decide,
    ((shell_resolution unixAllFoundHost {} {} echoRequest).2.2.1 (by decide)).1,
    ((shell_resolution unixAllFoundHost {} {} echoRequest).2.2.1 (by decide)).2,
    (shell_resolution unixAllFoundHost {} {} echoRequest).2.2.2 (by decide) (by decide)⟩

/-! ### C13: the languages a runner supports -/

/-- C13: `Supports` compares the tag with a fixed set of aliases, letter for
letter: the shell runner accepts exactly `bash`, `zsh` and `shell`, the Python
runner exactly `python` and `python3`, the Go runner exactly `go` and `golang`.
A tag with an upper-case letter is accepted by no runner (`Bash`, `GO`, `Python`
and `ZSH` are rejected), and no tag is accepted by two runners. -/
theorem Supports_exact (l : GoString) :
    (ShellExecutor.Supports l = true ↔
      l = "bash".toList ∨ l = "zsh".toList ∨ l = "shell".toList) ∧
    (PythonExecutor.Supports l = true ↔ l = "python".toList ∨ l = "python3".toList) ∧
    (GolangExecutor.Supports l = true ↔ l = "go".toList ∨ l = "golang".toList) ∧
    ShellExecutor.Supports "Bash".toList = false ∧
    ShellExecutor.Supports "ZSH".toList = false ∧
    PythonExecutor.Supports "Python".toList = false ∧
    GolangExecutor.Supports "GO".toList = false ∧
    ((ShellExecutor.Supports l || PythonExecutor.Supports l || GolangExecutor.Supports l) &&
      l.any Char.isUpper) = false ∧
    (ShellExecutor.Supports l && PythonExecutor.Supports l) = false ∧
    (ShellExecutor.Supports l && GolangExecutor.Supports l) = false ∧
    (PythonExecutor.Supports l && GolangExecutor.Supports l) = false := by
  have hs : ShellExecutor.Supports l = true ↔
      l = "bash".toList ∨ l = "zsh".toList ∨ l = "shell".toList := by
    simp [ShellExecutor.Supports, or_assoc]
  have hp : PythonExecutor.Supports l = true ↔ l = "python".toList ∨ l = "python3".toList := by
    simp [PythonExecutor.Supports]
  have hg : GolangExecutor.Supports l = true ↔ l = "go".toList ∨ l = "golang".toList := by
    simp [GolangExecutor.Supports]
  refine ⟨hs, hp, hg, by decide, by decide, by decide, by decide, ?_, ?_, ?_, ?_⟩
  · cases hA : ShellExecutor.Supports l
    · cases hB : PythonExecutor.Supports l
      · cases hC : GolangExecutor.Supports l
        · rfl
        · rcases hg.mp hC with e | e <;> subst e <;> decide
      · rcases hp.mp hB with e | e <;> subst e <;> decide
    · rcases hs.mp hA with e | e | e <;> subst e <;> decide
  · cases hA : ShellExecutor.Supports l
    · rfl
    · rcases hs.mp hA with e | e | e <;> subst e <;> decide
  · cases hA : ShellExecutor.Supports l
    · rfl
    · rcases hs.mp hA with e | e | e <;> subst e <;> decide
  · cases hA : PythonExecutor.Supports l
    · rfl
    · rcases hp.mp hA with e | e <;> subst e <;> decide

end Executor
